import Mathlib

/-!
Verification of the go-vcsfetch repository: a shallow embedding of the
URL classification, reference resolution and content retrieval strategy
subsystems, together with theorems settling the claims about them.

Go strings are modelled as lists of characters; Go byte values and
uint64 values are modelled as Nat (none of the embedded computations
approach an overflow boundary). Fallible Go functions return Except or
a GoOutcome value; a Go runtime panic is modelled by the distinguished
GoOutcome.goPanic constructor.
-/

/-- A Go string, modelled as its list of characters. -/
abbrev GoStr := List Char

/-- Coerce a Lean string literal to a GoStr. -/
def gs (s : String) : GoStr := s.data

deriving instance DecidableEq for Except

/-- Outcome of a Go call that can return a value, return an error, or panic. -/
inductive GoOutcome (α : Type) where
  | ok (val : α)
  | err (msg : GoStr)
  | goPanic (msg : GoStr)
deriving DecidableEq, Repr

/-- Is the character an ASCII decimal digit. Models the digit class of
strconv and of the semver character tables. -/
def isDigitCh (c : Char) : Bool := 48 ≤ c.toNat && c.toNat ≤ 57

/-- Is the character in the semver alphanumeric table: ASCII letters,
digits and the dash. -/
def isAlphanumCh (c : Char) : Bool :=
  isDigitCh c || (65 ≤ c.toNat && c.toNat ≤ 90) || (97 ≤ c.toNat && c.toNat ≤ 122) || c == '-'

/-- Models strings.HasPrefix. -/
def startsWith (pre s : GoStr) : Bool := List.isPrefixOf pre s

/-- Models strings.TrimPrefix: drop the leading occurrence when present. -/
def dropStart (pre s : GoStr) : GoStr := if startsWith pre s then s.drop pre.length else s

/-- Models strings.CutPrefix: the remainder and whether it was found. -/
def cutStart (s pre : GoStr) : GoStr × Bool :=
  if startsWith pre s then (s.drop pre.length, true) else (s, false)

/-- Models strings.HasSuffix. -/
def endsWith (suf s : GoStr) : Bool := List.isSuffixOf suf s

/-- Models strings.TrimSuffix. -/
def trimEnd (suf s : GoStr) : GoStr := if endsWith suf s then s.take (s.length - suf.length) else s

/-- Models strings.CutSuffix: the prefix part and whether it was found. -/
def cutEnd (s suf : GoStr) : GoStr × Bool :=
  if endsWith suf s then (s.take (s.length - suf.length), true) else (s, false)

/-- Models strings.TrimLeft with a single-character cut set. -/
def trimLeftChar (c : Char) (s : GoStr) : GoStr := s.dropWhile (· == c)

/-- Models strings.Trim with a single-character cut set. -/
def trimChar (c : Char) (s : GoStr) : GoStr :=
  ((trimLeftChar c s).reverse.dropWhile (· == c)).reverse

/-- Models strings.TrimSpace (the embedded inputs are ASCII). -/
def trimSpace (s : GoStr) : GoStr :=
  ((s.dropWhile Char.isWhitespace).reverse.dropWhile Char.isWhitespace).reverse

/-- Models strings.ToLower for ASCII input. -/
def toLowerStr (s : GoStr) : GoStr :=
  s.map fun c => if 65 ≤ c.toNat && c.toNat ≤ 90 then Char.ofNat (c.toNat + 32) else c

/-- Models strings.Contains: substring containment. -/
def containsStr (s sub : GoStr) : Bool :=
  if List.isPrefixOf sub s then true
  else
    match s with
    | [] => false
    | _ :: xs => containsStr xs sub

/-- Models strings.ContainsAny: does s contain any character of chars. -/
def containsAnyStr (s chars : GoStr) : Bool := s.any (fun c => chars.contains c)

/-- Models strings.Count for a single-character substring. -/
def countChar (c : Char) (s : GoStr) : Nat := s.count c

/-- Split at the first occurrence of a character: the part before it and,
when found, the part after it. Used to model strings.IndexRune followed
by the two slicing operations of the source. -/
def cutFirst (c : Char) : GoStr → GoStr × Option GoStr
  | [] => ([], none)
  | x :: xs =>
    if x == c then ([], some xs)
    else
      let (p, r) := cutFirst c xs
      (x :: p, r)

/-- Models strings.Split with a single-character separator: the result is
never empty, and splitting the empty string yields one empty part. -/
def splitChar (c : Char) : GoStr → List GoStr
  | [] => [[]]
  | x :: xs =>
    let r := splitChar c xs
    if x == c then [] :: r
    else
      match r with
      | [] => [[x]]
      | h :: t => (x :: h) :: t

/-- Models strings.SplitN with a single-character separator and n greater
than zero: at most n parts, the last part keeps the remainder unsplit.
For n greater than zero the result always has at least one element. -/
def splitCharN (c : Char) (n : Nat) (s : GoStr) : List GoStr :=
  match n with
  | 0 => []
  | 1 => [s]
  | Nat.succ m =>
    match cutFirst c s with
    | (_, none) => [s]
    | (pre, some rest) => pre :: splitCharN c m rest

/-- Models strings.Join with a string separator. -/
def joinStr (sep : GoStr) (parts : List GoStr) : GoStr := List.intercalate sep parts

/-- Models strconv.ParseUint base 10: digits only, non-empty. -/
def parseUintQ (s : GoStr) : Option Nat :=
  if s == [] then none
  else if s.all isDigitCh then some (s.foldl (fun acc ch => acc * 10 + (ch.toNat - 48)) 0)
  else none

/-- Go string less-than: byte-wise lexicographic order (ASCII inputs). -/
def strLtB : GoStr → GoStr → Bool
  | [], [] => false
  | [], _ :: _ => true
  | _ :: _, [] => false
  | x :: xs, y :: ys =>
    if x.toNat < y.toNat then true
    else if y.toNat < x.toNat then false
    else strLtB xs ys

namespace semver

/-!
Model of the blang semver v4 library used by the reference resolver:
Version and PRVersion values, tolerant parsing, comparison and the
increment helpers. Translated from the behaviour of that library as
exercised by the repository (ParseTolerant, Parse, Compare, GE, GT,
IncrementPatch, IncrementMinor, IncrementMajor).
-/

/-- A pre-release identifier: numeric or alphanumeric. -/
structure PRVersion where
  versionStr : GoStr := []
  versionNum : Nat := 0
  isNum : Bool := false
deriving DecidableEq, Repr

/-- A semantic version value. -/
structure Version where
  major : Nat := 0
  minor : Nat := 0
  patch : Nat := 0
  pre : List PRVersion := []
  build : List GoStr := []
deriving DecidableEq, Repr

/-- Pre-release identifier comparison: numeric identifiers sort below
alphanumeric ones; numeric compare by value, alphanumeric by string order. -/
def PRVersion.comparePR (v o : PRVersion) : Int :=
  if v.isNum && !o.isNum then -1
  else if !v.isNum && o.isNum then 1
  else if v.isNum && o.isNum then
    (if v.versionNum == o.versionNum then 0
     else if o.versionNum < v.versionNum then 1 else -1)
  else
    (if v.versionStr == o.versionStr then 0
     else if strLtB o.versionStr v.versionStr then 1 else -1)

/-- Element-wise comparison of pre-release identifier lists; a strict
prefix sorts below the longer list. -/
def comparePreLists : List PRVersion → List PRVersion → Int
  | [], [] => 0
  | [], _ :: _ => -1
  | _ :: _, [] => 1
  | x :: xs, y :: ys =>
    let c := x.comparePR y
    if c == 0 then comparePreLists xs ys else c

/-- Version comparison: major, minor, patch, then pre-release precedence;
a version without pre-release identifiers sorts above one with them. -/
def Version.compareV (v o : Version) : Int :=
  if v.major != o.major then (if o.major < v.major then 1 else -1)
  else if v.minor != o.minor then (if o.minor < v.minor then 1 else -1)
  else if v.patch != o.patch then (if o.patch < v.patch then 1 else -1)
  else if v.pre.isEmpty && o.pre.isEmpty then 0
  else if v.pre.isEmpty then 1
  else if o.pre.isEmpty then -1
  else comparePreLists v.pre o.pre

/-- Version greater-than. -/
def Version.gtB (v o : Version) : Bool := decide (0 < v.compareV o)

/-- Version greater-or-equal. -/
def Version.geB (v o : Version) : Bool := decide (0 ≤ v.compareV o)

/-- Does the string consist of digits only. The empty string counts as
digits-only, as with an IndexFunc based containsOnly check. -/
def containsOnlyDigits (s : GoStr) : Bool := s.all isDigitCh

/-- Leading-zero check: length above one and a leading zero digit. -/
def hasLeadingZeroes (s : GoStr) : Bool := decide (1 < s.length) && startsWith (gs "0") s

/-- Parse one pre-release identifier. -/
def newPRVersion (s : GoStr) : Except GoStr PRVersion :=
  if s == [] then .error (gs "prerelease is empty")
  else if containsOnlyDigits s then
    if hasLeadingZeroes s then .error (gs "numeric prerelease version must not contain leading zeroes")
    else
      match parseUintQ s with
      | some n => .ok { versionStr := [], versionNum := n, isNum := true }
      | none => .error (gs "invalid numeric prerelease")
  else if s.all isAlphanumCh then .ok { versionStr := s, versionNum := 0, isNum := false }
  else .error (gs "invalid character in prerelease")

/-- Parse every pre-release identifier in order. -/
def collectPre : List GoStr → Except GoStr (List PRVersion)
  | [] => .ok []
  | x :: xs =>
    match newPRVersion x with
    | .error e => .error e
    | .ok p =>
      match collectPre xs with
      | .error e => .error e
      | .ok ps => .ok (p :: ps)

/-- Validate build identifiers: non-empty and alphanumeric. -/
def checkBuild : List GoStr → Except GoStr (List GoStr)
  | [] => .ok []
  | x :: xs =>
    if x == [] then .error (gs "build meta data is empty")
    else if !x.all isAlphanumCh then .error (gs "invalid character in build meta data")
    else
      match checkBuild xs with
      | .error e => .error e
      | .ok bs => .ok (x :: bs)

/-- Strict semver parse: exactly three dot-separated numeric components,
with optional pre-release after a dash and build metadata after a plus
in the third component. -/
def parse (s : GoStr) : Except GoStr Version :=
  if s == [] then .error (gs "version string empty")
  else
    let parts := splitCharN '.' 3 s
    if parts.length != 3 then .error (gs "no major minor patch elements found")
    else
      let p0 := parts.getD 0 []
      let p1 := parts.getD 1 []
      let p2 := parts.getD 2 []
      if !containsOnlyDigits p0 then .error (gs "invalid character in major number")
      else if hasLeadingZeroes p0 then .error (gs "major number must not contain leading zeroes")
      else
        match parseUintQ p0 with
        | none => .error (gs "invalid major number")
        | some major =>
          if !containsOnlyDigits p1 then .error (gs "invalid character in minor number")
          else if hasLeadingZeroes p1 then .error (gs "minor number must not contain leading zeroes")
          else
            match parseUintQ p1 with
            | none => .error (gs "invalid minor number")
            | some minor =>
              let (patchStr1, buildTail) := cutFirst '+' p2
              let build := match buildTail with
                | none => []
                | some rest => splitChar '.' rest
              let (patchStr, preTail) := cutFirst '-' patchStr1
              let prerelease := match preTail with
                | none => []
                | some rest => splitChar '.' rest
              if !containsOnlyDigits patchStr then .error (gs "invalid character in patch number")
              else if hasLeadingZeroes patchStr then .error (gs "patch number must not contain leading zeroes")
              else
                match parseUintQ patchStr with
                | none => .error (gs "invalid patch number")
                | some patch =>
                  match collectPre prerelease with
                  | .error e => .error e
                  | .ok pres =>
                    match checkBuild build with
                    | .error e => .error e
                    | .ok builds =>
                      .ok { major := major, minor := minor, patch := patch, pre := pres, build := builds }

/-- Normalize one tolerant component: strip leading zeroes from parts of
length above one, restoring a single zero when the remainder is empty or
does not start with a digit. -/
def stripLeadingZeros (p : GoStr) : GoStr :=
  if 1 < p.length then
    let q := trimLeftChar '0' p
    if q == [] || !isDigitCh (q.headD ' ') then '0' :: q else q
  else p

/-- Pad a component list to three entries with zero components. -/
def padTo3 (parts : List GoStr) : List GoStr :=
  match parts with
  | [] => [gs "0", gs "0", gs "0"]
  | [a] => [a, gs "0", gs "0"]
  | [a, b] => [a, b, gs "0"]
  | l => l

/-- Tolerant semver parse: trims space, strips a leading v, fills missing
minor and patch components with zeroes, and rejects short versions that
carry pre-release or build metadata. -/
def parseTolerant (s : GoStr) : Except GoStr Version :=
  let s1 := trimSpace s
  let s2 := dropStart (gs "v") s1
  let parts := (splitCharN '.' 3 s2).map stripLeadingZeros
  if parts.length < 3 then
    if containsAnyStr (parts.getD (parts.length - 1) []) (gs "+-") then
      .error (gs "short version cannot contain prerelease or build meta data")
    else parse (joinStr (gs ".") (padTo3 parts))
  else parse (joinStr (gs ".") parts)

/-- Models IncrementPatch of the semver library (the error return is
always nil and discarded by the caller). -/
def incrementPatch (v : Version) : Version := { v with patch := v.patch + 1 }

/-- Models IncrementMinor of the semver library. -/
def incrementMinor (v : Version) : Version := { v with minor := v.minor + 1, patch := 0 }

/-- Models IncrementMajor of the semver library. -/
def incrementMajor (v : Version) : Version := { v with major := v.major + 1, minor := 0, patch := 0 }

end semver

namespace plumbing

/-!
Model of the go-git plumbing reference records consumed by the resolver:
reference type, reference name predicates and the short-name projection.
-/

/-- Reference type: hash, symbolic, or anything else (invalid). -/
inductive ReferenceType where
  | invalid
  | hashRef
  | symbolicRef
deriving DecidableEq, Repr

/-- A reference advertised by the remote: its type, its full name and its
target (hash or symbolic target, unused by the filtering logic). -/
structure Reference where
  rtype : ReferenceType
  name : GoStr
  target : GoStr := []
deriving DecidableEq, Repr

/-- The symbolic HEAD reference name. -/
def headName : GoStr := gs "HEAD"

/-- Models ReferenceName.IsBranch. -/
def isBranchName (n : GoStr) : Bool := startsWith (gs "refs/heads/") n

/-- Models ReferenceName.IsTag. -/
def isTagName (n : GoStr) : Bool := startsWith (gs "refs/tags/") n

/-- Models ReferenceName.Short for the reference kinds that occur here:
drop the refs/tags/, refs/heads/ or refs/remotes/ prefix; any other name,
including HEAD, is returned unchanged. -/
def shortOfName (n : GoStr) : GoStr :=
  if startsWith (gs "refs/tags/") n then n.drop (gs "refs/tags/").length
  else if startsWith (gs "refs/heads/") n then n.drop (gs "refs/heads/").length
  else if startsWith (gs "refs/remotes/") n then n.drop (gs "refs/remotes/").length
  else n

end plumbing

namespace git

/-!
Translation of the reference resolver of the repository: the Options
record, the Ref record, getVersionUpperBound, filterRef, latestSemver
and pickRef.
-/

/-- Options for a git Repository (internal git options record). -/
structure Options where
  isFSBacked : Bool := false
  dir : GoStr := []
  resolveExactTag : Bool := false
  recurseSubModules : Bool := false
  allowPreReleases : Bool := false
  debug : Bool := false
  gitSkipAutoDetect : Bool := false
deriving DecidableEq, Repr

/-- A local view of an advertised reference: the underlying reference,
its short name, and the tag and semver information attached by filterRef. -/
structure Ref where
  reference : plumbing.Reference
  shortName : GoStr
  isTag : Bool
  isSemver : Bool := false
  version : semver.Version := {}
deriving DecidableEq, Repr

/-- Derive the excluded upper bound for a tolerant semver ref spec, and
the flag that the source computes for implicitly allowing pre-releases.
The source compares desiredVersion GE finalized, where finalized is the
desired version with pre-release and build stripped. -/
def getVersionUpperBound (desiredVersion : semver.Version) (desiredSemverLevel : Nat) :
    semver.Version × Bool :=
  let versionUpperBound0 : semver.Version := { desiredVersion with pre := [], build := [] }
  let finalized : semver.Version := { desiredVersion with pre := [], build := [] }
  let allowPrereleases := semver.Version.geB desiredVersion finalized
  let versionUpperBound :=
    if desiredSemverLevel == 3 then semver.incrementPatch versionUpperBound0
    else if desiredSemverLevel == 2 then semver.incrementMinor versionUpperBound0
    else if desiredSemverLevel == 1 then semver.incrementMajor versionUpperBound0
    else versionUpperBound0
  (versionUpperBound, allowPrereleases)

/-- The filtering context assembled by pickRef. -/
structure refFilterContext where
  ref : GoStr
  resolveExactTag : Bool
  isDesiredSemver : Bool
  allowPrereleases : Bool
  versionUpperBound : semver.Version
deriving DecidableEq, Repr

/-- Translation of filterRef: decide whether one advertised reference
survives the filter, returning the local Ref record when retained. The
source returns a pair of a partially built record and a flag; only the
retained case is consumed, so the rejected record is modelled as none. -/
def filterRef (filter : refFilterContext) (rf : plumbing.Reference) : Option Ref :=
  if rf.rtype != .hashRef && rf.rtype != .symbolicRef then none
  else
    let name := rf.name
    let isTag := plumbing.isTagName name
    if !plumbing.isBranchName name && !isTag && name != plumbing.headName then none
    else if (filter.ref == [] || filter.ref == gs "HEAD") && name != plumbing.headName then none
    else if filter.isDesiredSemver && !isTag then none
    else
      let short := plumbing.shortOfName name
      if (filter.resolveExactTag || !filter.isDesiredSemver) && short != filter.ref then none
      else
        let localRef0 : Ref := { reference := rf, shortName := short, isTag := isTag }
        let localRef :=
          if isTag then
            match semver.parseTolerant short with
            | .ok version => { localRef0 with isSemver := true, version := version }
            | .error _ => localRef0
          else localRef0
        if !filter.resolveExactTag && filter.isDesiredSemver then
          if !localRef.isSemver then none
          else if !filter.allowPrereleases && decide (0 < localRef.version.pre.length) then none
          else if semver.Version.geB localRef.version filter.versionUpperBound then none
          else some localRef
        else some localRef

/-- Insert a Ref into a list sorted in descending version order, using
the strict greater-than comparator of the source sort. -/
def insertDescending (x : Ref) : List Ref → List Ref
  | [] => [x]
  | y :: ys => if semver.Version.gtB x.version y.version then x :: y :: ys else y :: insertDescending x ys

/-- Sort Refs in descending version order. Models the sort.Slice call of
the source with the GT comparator; for distinct version keys, as in all
advertisements considered here, the result is the unique sorted order. -/
def sortDescending : List Ref → List Ref
  | [] => []
  | x :: xs => insertDescending x (sortDescending xs)

/-- Translation of latestSemver: keep the semver tags, sort them in
descending version order and select the first. -/
def latestSemver (refs : List Ref) : Except GoStr Ref :=
  let eligibleTags := refs.filter (·.isSemver)
  if eligibleTags.length == 0 then .error (gs "no tag did match the version constraint")
  else
    match sortDescending eligibleTags with
    | [] => .error (gs "no tag did match the version constraint")
    | tag :: _ => .ok tag

/-- The survivor-collecting loop of pickRef: accumulate retained refs in
advertisement order, terminating early with a selected ref when the ref
spec is empty, HEAD, or an exact tag is requested. -/
def pickRefLoop (ctx : refFilterContext) : List plumbing.Reference → List Ref → List Ref × Option Ref
  | [], refs => (refs, none)
  | rf :: rest, refs =>
    match filterRef ctx rf with
    | none => pickRefLoop ctx rest refs
    | some localRef =>
      let refs := refs ++ [localRef]
      if ctx.ref == [] || ctx.ref == gs "HEAD" || ctx.resolveExactTag then (refs, some localRef)
      else pickRefLoop ctx rest refs

/-- Translation of pickRef: tolerant-parse the ref spec, derive the upper
bound and the pre-release policy, filter the advertised references, and
select exactly one or fail. -/
def pickRef (allRefs : List plumbing.Reference) (ref : GoStr) (opts : Option Options) :
    Except GoStr Ref :=
  let parsed := semver.parseTolerant ref
  let isDesiredSemver := match parsed with | .ok _ => true | .error _ => false
  let desiredVersion := match parsed with | .ok v => v | .error _ => ({} : semver.Version)
  let allowPrereleases0 := match opts with | some o => o.allowPreReleases | none => false
  let resolveExactTag := match opts with | some o => o.resolveExactTag | none => false
  let (versionUpperBound, allowPrereleases) :=
    if isDesiredSemver then
      let desiredSemverLevel := min (countChar '.' ref) 2 + 1
      let (ub, allow) := getVersionUpperBound desiredVersion desiredSemverLevel
      (ub, allowPrereleases0 || allow)
    else (({} : semver.Version), allowPrereleases0)
  let ctx : refFilterContext :=
    { ref := ref, resolveExactTag := resolveExactTag, isDesiredSemver := isDesiredSemver,
      allowPrereleases := allowPrereleases, versionUpperBound := versionUpperBound }
  let (refs, selected) := pickRefLoop ctx allRefs []
  if refs.length == 0 then .error (gs "could not resolve any remote reference for ref spec")
  else
    match selected with
    | some selectedRef => .ok selectedRef
    | none =>
      match refs with
      | [onlyRef] => .ok onlyRef
      | _ =>
        if !isDesiredSemver then .error (gs "ref spec resolved ambiguously to multiple refs")
        else latestSemver refs

end git

namespace url

/-!
Model of the net/url URL values consumed by the parsers: the fields the
repository reads and writes, plus the Hostname and Port projections.
-/

/-- URL userinfo: username and optional password. -/
structure Userinfo where
  username : GoStr := []
  password : Option GoStr := none
deriving DecidableEq, Repr

/-- A parsed URL: the fields used by the embedded code. -/
structure URL where
  scheme : GoStr := []
  user : Option Userinfo := none
  host : GoStr := []
  path : GoStr := []
  rawQuery : GoStr := []
  fragment : GoStr := []
deriving DecidableEq, Repr

/-- Index of the last occurrence of a character, if any. -/
def lastIndexOfChar (c : Char) (s : GoStr) : Option Nat :=
  (List.range s.length).foldl (fun acc i => if s.getD i ' ' == c then some i else acc) none

/-- Split host into hostname and port: models the net/url rule that a
valid port suffix is a colon followed by digits only. -/
def splitHostPort (host : GoStr) : GoStr × GoStr :=
  match lastIndexOfChar ':' host with
  | none => (host, [])
  | some i =>
    let after := host.drop (i + 1)
    if after.all isDigitCh then (host.take i, after) else (host, [])

/-- Models URL.Hostname. -/
def URL.hostname (u : URL) : GoStr := (splitHostPort u.host).1

/-- Models URL.Port. -/
def URL.port (u : URL) : GoStr := (splitHostPort u.host).2

end url

/-- Models path.Join for the already-clean components produced by the
embedded parsers: drop empty elements and join the rest with slashes
(no dot segments or duplicated slashes occur in these inputs, so the
final Clean step of path.Join is the identity). -/
def pathJoin (elems : List GoStr) : GoStr :=
  joinStr (gs "/") (elems.filter (· != []))

namespace giturl

/-- The minimal locator view shared by the provider parsers and the
fetcher: repository URL, sub-path and version. The source declares one
provider-specific record per package with exactly these three fields
and accessor methods. -/
structure Locator where
  repoURL : url.URL
  path : GoStr
  version : GoStr
deriving DecidableEq, Repr

end giturl

namespace github

/-!
Translation of the github provider parser and raw-content URL builder.
-/

/-- The canonical github host. -/
def defaultHost : GoStr := gs "github.com"

/-- The github raw-content host. -/
def rawHost : GoStr := gs "raw.githubusercontent.com"

/-- The ref and remaining-parts extraction of the github parser: the raw
branch distinguishes a refs discriminator from a direct ref; the browse
branch requires a blob or tree keyword followed by the ref. Returns the
ref, the remaining path parts and the tree flag. -/
def parseRefParts (isRaw : Bool) (parts : List GoStr) : Except GoStr (GoStr × List GoStr × Bool) :=
  if isRaw then
    match parts with
    | [] => .error (gs "expected raw content URL path to contain refs but got empty path")
    | p0 :: _ =>
      let discriminator := toLowerStr p0
      if discriminator == gs "refs" then
        if parts.length < 3 then .error (gs "expected raw content URL path to contain at least 3 parts")
        else .ok (parts.getD 2 [], parts.drop 3, false)
      else if discriminator == gs "blob" || discriminator == gs "tree" then
        .error (gs "expected raw content URL path to contain refs")
      else if parts.length < 2 then
        .error (gs "expected raw content URL path to contain at least 2 parts")
      else .ok (p0, parts.drop 1, false)
  else
    match parts with
    | p0 :: p1 :: rest =>
      let keyword := toLowerStr p0
      if keyword == gs "blob" then .ok (p1, rest, false)
      else if keyword == gs "tree" then .ok (p1, rest, true)
      else .error (gs "expected URL path to contain blob or tree")
    | _ => .error (gs "expected URL path to contain at least 2 parts")

/-- Translation of the github Parse function. -/
def Parse (githubURL : url.URL) : Except GoStr giturl.Locator :=
  let u := githubURL
  let u := if u.scheme == [] then { u with scheme := gs "https" } else u
  let u :=
    if u.hostname == [] then
      (if u.port == [] then { u with host := defaultHost }
       else { u with host := defaultHost ++ ':' :: u.port })
    else u
  let u := { u with host := toLowerStr u.host }
  let isRaw := startsWith (gs "raw") (toLowerStr u.host)
  let pth := trimChar '/' u.path
  let parts := splitChar '/' pth
  if parts.length < 2 then .error (gs "expected the URL path component to contain at least 2 parts")
  else
    let repo := trimEnd (gs ".git") (joinStr (gs "/") (parts.take 2))
    let u := { u with path := repo }
    if parts.length == 2 then
      if isRaw then .error (gs "expected raw content URL path to contain refs but got empty path")
      else .ok { repoURL := { u with fragment := [], rawQuery := [] }, path := gs "/", version := [] }
    else
      match parseRefParts isRaw (parts.drop 2) with
      | .error e => .error e
      | .ok (ref, rest, isTree) =>
        if rest.isEmpty then
          if !isTree then .error (gs "expected URL path to contain at least 4 parts")
          else .ok { repoURL := { u with fragment := [], rawQuery := [] }, path := gs "/", version := ref }
        else
          .ok { repoURL := { u with fragment := [], rawQuery := [] },
                path := joinStr (gs "/") rest, version := ref }

/-- Translation of the github Raw function: synthesize the
raw.githubusercontent URL for a locator hosted on github.com. -/
def Raw (locator : giturl.Locator) : Except GoStr url.URL :=
  let repo := locator.repoURL
  let pth := trimChar '/' locator.path
  if pth == [] then .error (gs "returning a raw content url requires a non empty path to a file")
  else
    let version := if locator.version == [] then gs "HEAD" else locator.version
    let scheme := (cutEnd repo.scheme (gs "+git")).1
    if scheme != gs "https" then
      .error (gs "returning a raw content url requires a https URL scheme")
    else if repo.port != [] && repo.port != gs "443" then
      .error (gs "returning a raw content url requires a https URL with standard port")
    else
      let host := repo.hostname
      if host == defaultHost || host == rawHost then
        .ok { repo with host := gs "raw.githubusercontent.com",
                        path := pathJoin [repo.path, version, pth], fragment := [] }
      else .error (gs "no way to guess the raw content host for github not hosted by github.com")

end github

namespace gitlab

/-!
Translation of the gitlab provider parser and raw-content URL builder.
-/

/-- The canonical gitlab host. -/
def defaultHost : GoStr := gs "gitlab.com"

/-- Translation of the gitlab Parse function. -/
def Parse (gitlabURL : url.URL) : Except GoStr giturl.Locator :=
  let u := gitlabURL
  let u :=
    if u.scheme == [] then { u with scheme := gs "https" }
    else { u with scheme := (cutStart u.scheme (gs "git+")).1 }
  let u :=
    if u.hostname == [] then
      (if u.port == [] then { u with host := defaultHost }
       else { u with host := defaultHost ++ ':' :: u.port })
    else u
  let u := { u with host := toLowerStr u.host }
  let pth := trimChar '/' u.path
  let parts := splitChar '/' pth
  if parts.length < 2 then .error (gs "expected the URL path component to contain at least 2 parts")
  else
    let repo := trimEnd (gs ".git") (joinStr (gs "/") (parts.take 2))
    let u := { u with path := repo }
    if parts.length == 2 || (parts.length == 3 && parts.getD 2 [] == gs "-") then
      .ok { repoURL := { u with fragment := [], rawQuery := [] }, path := gs "/", version := [] }
    else
      let parts := parts.drop 2
      match parts with
      | [] => .error (gs "expected URL path to contain a dash separator")
      | dash :: afterDash =>
        if dash != gs "-" then .error (gs "expected URL path to contain a dash separator")
        else if afterDash.length < 2 then
          .error (gs "expected URL path to contain at least 2 parts after the dash")
        else
          match afterDash with
          | kind :: ref :: rest =>
            let keyword := toLowerStr kind
            if keyword == gs "blob" || keyword == gs "raw" then
              if rest.isEmpty then .error (gs "expected URL path to contain at least 4 parts")
              else
                .ok { repoURL := { u with fragment := [], rawQuery := [] },
                      path := joinStr (gs "/") rest, version := ref }
            else if keyword == gs "tree" then
              if rest.isEmpty then
                .ok { repoURL := { u with fragment := [], rawQuery := [] },
                      path := gs "/", version := ref }
              else
                .ok { repoURL := { u with fragment := [], rawQuery := [] },
                      path := joinStr (gs "/") rest, version := ref }
            else .error (gs "expected URL path to contain blob or tree")
          | _ => .error (gs "expected URL path to contain at least 2 parts after the dash")

/-- Translation of the gitlab Raw function: append the dash, raw, version
and sub-path segments to the repository path. -/
def Raw (locator : giturl.Locator) : Except GoStr url.URL :=
  let pth := locator.path
  if pth == [] then .error (gs "returning a raw content url requires a non empty path to a file")
  else
    let version := if locator.version == [] then gs "HEAD" else locator.version
    let u := locator.repoURL
    .ok { u with path := pathJoin [u.path, gs "-", gs "raw", version, locator.path], fragment := [] }

end gitlab

namespace giturl

/-!
Translation of the provider autodetection and the raw-content dispatcher.
-/

/-- Known SCM providers. -/
inductive Provider where
  | unknown
  | github
  | gitlab
  | azure
  | bitbucket
  | gitea
deriving DecidableEq, Repr

/-- Result of AutoDetect: a detected provider with a parsed locator, a
provider with a parse or detection error, or a runtime panic. -/
inductive DetectResult where
  | detected (p : Provider) (loc : Locator)
  | failed (p : Provider) (msg : GoStr)
  | goPanic (msg : GoStr)
deriving DecidableEq, Repr

/-- Translation of AutoDetect: dispatch on a lowercased host substring in
declaration order. The gitlab branch of the source invokes the github
parser, and the azure, bitbucket and gitea branches panic with a
not-implemented message; both behaviours are reproduced verbatim. -/
def AutoDetect (u : url.URL) : DetectResult :=
  let host := toLowerStr u.host
  if containsStr host (gs "github") then
    match github.Parse u with
    | .ok loc => .detected .github loc
    | .error e => .failed .github e
  else if containsStr host (gs "gitlab") then
    match github.Parse u with
    | .ok loc => .detected .gitlab loc
    | .error e => .failed .gitlab e
  else if containsStr host (gs "azure") then .goPanic (gs "not implemented")
  else if containsStr host (gs "bitbucket") then .goPanic (gs "not implemented")
  else if containsStr host (gs "gitea") then .goPanic (gs "not implemented")
  else .failed .unknown (gs "unrecognized git-url provider in URL")

/-- Translation of Raw: autodetect the provider of the repository URL and
delegate to the provider-specific raw URL builder; undetected or
unimplemented providers propagate the error or the panic. -/
def Raw (locator : Locator) : GoOutcome url.URL :=
  match AutoDetect locator.repoURL with
  | .failed _ e => .err e
  | .goPanic m => .goPanic m
  | .detected provider _ =>
    match provider with
    | .github =>
      (match github.Raw locator with
       | .ok u => .ok u
       | .error e => .err e)
    | .gitlab =>
      (match gitlab.Raw locator with
       | .ok u => .ok u
       | .error e => .err e)
    | _ => .goPanic (gs "not implemented")

end giturl

namespace download

/-!
Translation of the raw-content download package. The HTTP round-trip is
an external collaborator: its result is an oracle parameter carrying the
status and body of the GET response, or a transport error. The sink is a
list of written chunks.
-/

/-- The observable result of the HTTP GET issued by the downloader. -/
structure HttpResp where
  status : Nat
  body : GoStr
deriving DecidableEq, Repr

/-- Translation of Supported: http and https schemes only, after cutting
a git+ scheme prefix. -/
def Supported (u : url.URL) : Bool :=
  let scheme := (cutStart u.scheme (gs "git+")).1
  scheme == gs "http" || scheme == gs "https"

/-- Translation of httpContent: a transport error or a non-200 status is
an error and writes nothing; a 200 response streams the body to the sink. -/
def httpContent (doResp : GoOutcome HttpResp) (w : List GoStr) :
    GoOutcome Unit × List GoStr :=
  match doResp with
  | .goPanic m => (.goPanic m, w)
  | .err e => (.err (e ++ gs ": error downloading file"), w)
  | .ok resp =>
    if resp.status != 200 then (.err (gs "could not fetch resource: error downloading file"), w)
    else (.ok (), w ++ [resp.body])

/-- Translation of Content: gate on the scheme (after cutting git+) and
delegate to httpContent. -/
def Content (u : url.URL) (doResp : GoOutcome HttpResp) (w : List GoStr) :
    GoOutcome Unit × List GoStr :=
  let scheme := (cutStart u.scheme (gs "git+")).1
  if scheme == gs "http" || scheme == gs "https" then httpContent doResp w
  else (.err (gs "unsupported URL scheme: error downloading file"), w)

end download

namespace vcsfetch

/-!
Translation of the public facade: the option bundles and their conversion
to internal git options, the SPDX locator parser, and the FetchLocator
strategy of the fetcher.
-/

/-- The git-related option fields of the facade option bundle. -/
structure gitOptions where
  isFSBacked : Bool := false
  dir : GoStr := []
  gitSkipAutodetect : Bool := false
  debug : Bool := false
  resolveExactTag : Bool := false
  allowPrereleases : Bool := false
  recurseSubModules : Bool := false
deriving DecidableEq, Repr

/-- The locator-related option fields of the facade option bundle (the
nested SPDX and git-locator parser option lists are not consumed by the
embedded code paths and are omitted). -/
structure locOptions where
  requireVersion : Bool := false
  skipRawURL : Bool := false
deriving DecidableEq, Repr

/-- The fetcher option bundle. -/
structure fetchOptions where
  gitOptions : gitOptions := {}
  locOptions : locOptions := {}
deriving DecidableEq, Repr

/-- Translation of withGitAllowPrereleases: set the facade-level
pre-release flag. -/
def withGitAllowPrereleases (allowed : Bool) (o : gitOptions) : gitOptions :=
  { o with allowPrereleases := allowed }

/-- Translation of FetchWithAllowPrereleases: the public option applies
withGitAllowPrereleases to the git option fields of the bundle. -/
def FetchWithAllowPrereleases (allowed : Bool) (o : fetchOptions) : fetchOptions :=
  { o with gitOptions := withGitAllowPrereleases allowed o.gitOptions }

/-- Translation of gitOptions.toInternalGitOptions: the conversion copies
the backing, autodetect, debug and exact-tag fields only; the
allowPrereleases and recurseSubModules fields are not copied, so the
internal record keeps their zero value false. -/
def gitOptions.toInternalGitOptions (o : gitOptions) : git.Options :=
  { isFSBacked := o.isFSBacked
    dir := o.dir
    gitSkipAutoDetect := o.gitSkipAutodetect
    debug := o.debug
    resolveExactTag := o.resolveExactTag }

/-- The SPDX locator record. -/
structure SPDXLocator where
  userinfo : url.Userinfo := {}
  tool : GoStr
  transport : GoStr
  host : GoStr
  repoPath : GoStr
  ref : GoStr
  subPath : GoStr
deriving DecidableEq, Repr

/-- Translation of SPDXLocatorFromURL. The source splits the scheme with
SplitN on the plus sign and tests len(parts) greater than zero, which is
always true, so its else branch defaulting the tool to git is dead code
and indexing parts at one panics whenever the scheme has no plus sign.
The path split on the at sign has the same shape, and its else branch is
commented out in the source, leaving an unconditional assignment of the
whole URL path to repoPath inside the taken branch. -/
def SPDXLocatorFromURL (u : url.URL) (requireVersion : Bool) : GoOutcome SPDXLocator :=
  if u.path == [] then .err (gs "SPDX locator requires an URL path")
  else if u.fragment == [] then .err (gs "SPDX locator requires an URL fragment to specify a single file")
  else
    let parts := splitCharN '+' 2 u.scheme
    let schemeStep : GoOutcome (GoStr × GoStr) :=
      if decide (0 < parts.length) then
        match parts.get? 1 with
        | none => .goPanic (gs "runtime error: index out of range")
        | some transport => .ok (parts.headD [], transport)
      else .ok (gs "git", u.scheme)
    match schemeStep with
    | .goPanic m => .goPanic m
    | .err e => .err e
    | .ok (tool, transport) =>
      let parts2 := splitCharN '@' 2 u.path
      let pathStep : GoOutcome (GoStr × GoStr) :=
        if decide (0 < parts2.length) then
          match parts2.get? 1 with
          | none => .goPanic (gs "runtime error: index out of range")
          | some refPart =>
            let _ := parts2.headD []
            .ok (u.path, refPart)
        else .ok ([], [])
      match pathStep with
      | .goPanic m => .goPanic m
      | .err e => .err e
      | .ok (repoPath, ref) =>
        if requireVersion && ref == [] then .err (gs "a non-empty version is required")
        else
          let userinfo := match u.user with | some ui => ui | none => ({} : url.Userinfo)
          .ok { userinfo := userinfo, tool := tool, transport := transport, host := u.host,
                repoPath := repoPath, ref := ref, subPath := u.fragment }

/-- Translation of SPDXLocator.RepoURL: rebuild the transport URL from
the parsed components. -/
def SPDXLocator.RepoURLOf (l : SPDXLocator) : url.URL :=
  { scheme := l.transport, user := some l.userinfo, host := l.host, path := l.repoPath }

/-- Translation of the FetchLocator method of the fetcher that contains
the raw short-circuit. The git retrieval engine is an external
collaborator here (network, go-git storage): it is passed as an oracle
that receives the internal git options, the sub-path, the ref and the
sink, exactly the data the source hands to NewRepo and Repository.Fetch.
The HTTP GET response is the doResp oracle. The sink is the list of
chunks written so far. -/
def FetchLocator (f : fetchOptions) (locator : giturl.Locator)
    (doResp : GoOutcome download.HttpResp)
    (gitFetch : git.Options → GoStr → GoStr → List GoStr → GoOutcome Unit × List GoStr)
    (w : List GoStr) : GoOutcome Unit × List GoStr :=
  if f.locOptions.requireVersion && locator.version == [] then
    (.err (gs "an explicit version is required"), w)
  else
    let rawStep : Option (GoOutcome Unit) × List GoStr :=
      if download.Supported locator.repoURL then
        match giturl.Raw locator with
        | .ok rawURL =>
          (match download.Content rawURL doResp w with
           | (.err e, w2) => (some (.err (gs "could not fetch raw content: " ++ e)), w2)
           | (.goPanic m, w2) => (some (.goPanic m), w2)
           | (.ok _, w2) => (none, w2))
        | .err _ => (none, w)
        | .goPanic m => (some (.goPanic m), w)
      else (none, w)
    match rawStep with
    | (some earlyReturn, w2) => (earlyReturn, w2)
    | (none, w2) =>
      match gitFetch (gitOptions.toInternalGitOptions f.gitOptions) locator.path locator.version w2 with
      | (.err e, w3) => (.err (e ++ gs ": vcsfetch error"), w3)
      | (.goPanic m, w3) => (.goPanic m, w3)
      | (.ok _, w3) => (.ok (), w3)

end vcsfetch

/-!
Claim inputs and classifiers: concrete advertisements, URLs and locators
taken from the scenarios of the specification, plus small projections
used to state the theorems.
-/

/-- Short-name projection of a resolver result. -/
def pickedShortName : Except GoStr git.Ref → Option GoStr
  | .ok r => some r.shortName
  | .error _ => none

/-- Number of pre-release identifiers of the selected version. -/
def pickedPreCount : Except GoStr git.Ref → Option Nat
  | .ok r => some r.version.pre.length
  | .error _ => none

/-- Did the resolver fail. -/
def isResolveError : Except GoStr git.Ref → Bool
  | .ok _ => false
  | .error _ => true

/-- The advertisement of the C1 scenario: a symbolic HEAD and the tags
v1.0.0, v1.2.0, v1.2.1, v1.3.0-rc1 and v2.0.0. -/
def refsC1 : List plumbing.Reference :=
  [ { rtype := .symbolicRef, name := gs "HEAD", target := gs "refs/heads/master" },
    { rtype := .hashRef, name := gs "refs/tags/v1.0.0", target := gs "aaaa" },
    { rtype := .hashRef, name := gs "refs/tags/v1.2.0", target := gs "bbbb" },
    { rtype := .hashRef, name := gs "refs/tags/v1.2.1", target := gs "cccc" },
    { rtype := .hashRef, name := gs "refs/tags/v1.3.0-rc1", target := gs "dddd" },
    { rtype := .hashRef, name := gs "refs/tags/v2.0.0", target := gs "eeee" } ]

/-- The advertisement of the C7 scenario: the single pre-release tag
v1.3.0-rc1. -/
def refsC7 : List plumbing.Reference :=
  [ { rtype := .hashRef, name := gs "refs/tags/v1.3.0-rc1", target := gs "dddd" } ]

/-- The advertisement of the C8 scenario: a symbolic HEAD followed by a
branch and a tag. -/
def refsC8 : List plumbing.Reference :=
  [ { rtype := .symbolicRef, name := gs "HEAD", target := gs "refs/heads/main" },
    { rtype := .hashRef, name := gs "refs/heads/main", target := gs "ffff" },
    { rtype := .hashRef, name := gs "refs/tags/v1.0.0", target := gs "aaaa" } ]

/-- The version parsed from the pre-release ref spec of C7. -/
def vRC1 : semver.Version :=
  { major := 1, minor := 3, patch := 0,
    pre := [{ versionStr := gs "rc1", versionNum := 0, isNum := false }], build := [] }

/-- The version parsed from the plain ref spec v1. -/
def vOne : semver.Version := { major := 1, minor := 0, patch := 0, pre := [], build := [] }

/-- The github locator of the C2 scenario: an https repository URL with a
sub-path and a version, eligible for the raw short-circuit. -/
def locC2 : giturl.Locator :=
  { repoURL := { scheme := gs "https", host := gs "github.com", path := gs "user/repo" },
    path := gs "README.md", version := gs "v1.0.0" }

/-- The github locator of the C3 scenario. -/
def locC3 : giturl.Locator :=
  { repoURL := { scheme := gs "https", host := gs "github.com", path := gs "user/repo" },
    path := gs "README.md", version := gs "v1.0.0" }

/-- A git retrieval oracle that succeeds and writes one content chunk to
the sink, as the in-process git path does on success. -/
def gitFetchStub : git.Options → GoStr → GoStr → List GoStr → GoOutcome Unit × List GoStr :=
  fun _ _ _ w => (.ok (), w ++ [gs "GIT-CONTENT"])

/-- The gitlab browse URL of the C4 scenario, as parsed by net/url. -/
def c4url : url.URL :=
  { scheme := gs "https", host := gs "gitlab.com",
    path := gs "/fredbi/go-vcsfetch/-/blob/master/README.md" }

/-- The SPDX URL of the C5 scenario, as parsed by net/url: scheme
git+ssh, userinfo git, host github.com, path with the at-version suffix,
fragment README.md. -/
def c5url : url.URL :=
  { scheme := gs "git+ssh", user := some { username := gs "git" }, host := gs "github.com",
    path := gs "/user/repo@v1.0.0", fragment := gs "README.md" }

/-- The expected parse outcome of the C5 scenario under the translated
parser: the repoPath keeps the whole URL path, version suffix included. -/
def c5parsed : vcsfetch.SPDXLocator :=
  { userinfo := { username := gs "git" }, tool := gs "git", transport := gs "ssh",
    host := gs "github.com", repoPath := gs "/user/repo@v1.0.0", ref := gs "v1.0.0",
    subPath := gs "README.md" }

/-- The SPDX URL of the C6 scenario: a plain https scheme with no plus
sign, a non-empty path and a non-empty fragment. -/
def c6url : url.URL :=
  { scheme := gs "https", host := gs "github.com",
    path := gs "/user/repo@v1.0.0", fragment := gs "README.md" }

/-- A bitbucket browse URL for the C9 scenario. -/
def c9bitbucket : url.URL :=
  { scheme := gs "https", host := gs "bitbucket.org", path := gs "/workspace/repo/src/v1.0.0/LICENSE" }

/-- An azure host URL for the C9 scenario. -/
def c9azure : url.URL :=
  { scheme := gs "https", host := gs "dev.azure.com", path := gs "/org/project/repo" }

/-- A gitea host URL for the C9 scenario. -/
def c9gitea : url.URL :=
  { scheme := gs "https", host := gs "gitea.example.com", path := gs "/user/repo" }

/-- C1: for the advertised tags v1.0.0, v1.2.0, v1.2.1, v1.3.0-rc1 and
v2.0.0 under the default policy flags, the claim states that resolving
the plain ref v1 selects v1.2.1 and never a tag with a pre-release
component. The translated resolver instead selects the pre-release tag
v1.3.0-rc1: the implicit pre-release allowance in getVersionUpperBound
is computed with an inverted comparison, so a plain ref spec always
allows pre-releases. -/
theorem c1_resolver_selects_prerelease_for_plain_ref :
    pickedShortName (git.pickRef refsC1 (gs "v1") (some ({} : git.Options))) = some (gs "v1.3.0-rc1") ∧
    pickedPreCount (git.pickRef refsC1 (gs "v1") (some ({} : git.Options))) = some 1 ∧
    gs "v1.3.0-rc1" ≠ gs "v1.2.1" := by decide

/-- C2: the claim states that a failed raw-content GET is recovered
locally and the fetch falls back to the git retrieval path. In the
translated FetchLocator a non-200 response makes the method return the
raw-fetch error to the caller: the result is an error, the sink stays
empty, and the git oracle, which would have appended its content chunk,
is never reached. -/
theorem c2_raw_failure_returned_to_caller_without_git_fallback :
    vcsfetch.FetchLocator {} locC2 (.ok { status := 404, body := gs "not found" }) gitFetchStub [] =
      (.err (gs "could not fetch raw content: could not fetch resource: error downloading file"), []) := by
  decide

/-- C3: the claim states that after a successful raw download the fetch
does not additionally run the git path against the same sink. In the
translated FetchLocator a 200 raw response streams the body and then
falls through to the git retrieval, so the sink receives the raw chunk
followed by the git chunk: the content is written twice. -/
theorem c3_successful_raw_download_still_runs_git_path :
    vcsfetch.FetchLocator {} locC3 (.ok { status := 200, body := gs "RAW-CONTENT" }) gitFetchStub [] =
      (.ok (), [gs "RAW-CONTENT", gs "GIT-CONTENT"]) := by
  decide

/-- C4: the claim states that a gitlab host routes to the gitlab parser
and that the canonical gitlab browse URL parses to the expected triple.
The gitlab branch of the translated AutoDetect invokes the github
parser, which rejects the dash segment of the gitlab grammar, so
autodetection fails on this URL, while the gitlab parser itself yields
exactly the triple the claim expects. -/
theorem c4_gitlab_host_misrouted_to_github :
    giturl.AutoDetect c4url = .failed .gitlab (gs "expected URL path to contain blob or tree") ∧
    gitlab.Parse c4url =
      .ok { repoURL := { scheme := gs "https", host := gs "gitlab.com", path := gs "fredbi/go-vcsfetch" },
            path := gs "README.md", version := gs "master" } := by
  decide

/-- C5: the claim states that the repo path of a parsed SPDX locator
contains no at sign, the version suffix being stripped. In the
translated parser the else branch of the path split is commented out in
the source, leaving an unconditional assignment of the whole URL path,
so the repoPath of the example keeps the at-version suffix and the
rebuilt repository URL path contains an at sign. -/
theorem c5_spdx_repo_path_keeps_version_suffix :
    vcsfetch.SPDXLocatorFromURL c5url false = .ok c5parsed ∧
    containsStr (vcsfetch.SPDXLocator.RepoURLOf c5parsed).path (gs "@") = true ∧
    c5parsed.repoPath ≠ gs "/user/repo" := by
  decide

/-- C6: the claim states that an SPDX URL whose scheme has no plus sign
parses normally with tool git and the whole scheme as transport. The
scheme split of the translated parser always enters the branch that
indexes the split result at position one, so a scheme without a plus
sign hits an out-of-range index: the call panics instead of returning. -/
theorem c6_plain_scheme_spdx_parse_panics :
    vcsfetch.SPDXLocatorFromURL c6url false = .goPanic (gs "runtime error: index out of range") := by
  decide

/-- C7: the claim states that a ref spec carrying a pre-release suffix
implicitly allows pre-release tags, and that a plain ref spec allows
them only when the flag is set. The translated getVersionUpperBound
returns the allowance flag from the comparison desired GE finalized,
which is false exactly when the ref spec has a pre-release suffix: the
allowance is inverted on both sides, and resolving v1.3.0-rc1 against
the sole advertised tag v1.3.0-rc1 with the flag unset fails. -/
theorem c7_implicit_prerelease_allowance_inverted :
    semver.parseTolerant (gs "v1.3.0-rc1") = .ok vRC1 ∧
    0 < vRC1.pre.length ∧
    (git.getVersionUpperBound vRC1 3).2 = false ∧
    semver.parseTolerant (gs "v1") = .ok vOne ∧
    vOne.pre = [] ∧
    (git.getVersionUpperBound vOne 1).2 = true ∧
    isResolveError (git.pickRef refsC7 (gs "v1.3.0-rc1") (some ({} : git.Options))) = true := by
  decide

/-- C8: the claim states that resolving the empty ref spec and resolving
HEAD both return the symbolic HEAD entry when it is advertised. In the
translated resolver the exact-match filter compares the short name HEAD
against the requested ref spec, so the empty ref spec rejects every
reference, HEAD included, and resolution fails, while resolving HEAD
does return the symbolic HEAD entry. -/
theorem c8_empty_ref_fails_while_head_succeeds :
    isResolveError (git.pickRef refsC8 (gs "") (some ({} : git.Options))) = true ∧
    pickedShortName (git.pickRef refsC8 (gs "HEAD") (some ({} : git.Options))) = some (gs "HEAD") := by
  decide

/-- C9: the claim states that autodetection on azure, bitbucket and
gitea hosts returns normally with a value or an error and never panics.
The azure, bitbucket and gitea branches of the translated AutoDetect
panic with a not-implemented message on all three hosts. -/
theorem c9_unimplemented_provider_hosts_panic :
    giturl.AutoDetect c9bitbucket = .goPanic (gs "not implemented") ∧
    giturl.AutoDetect c9azure = .goPanic (gs "not implemented") ∧
    giturl.AutoDetect c9gitea = .goPanic (gs "not implemented") := by
  decide

/-- C10: two fetch operations differing only in the value passed to
FetchWithAllowPrereleases behave identically on every input, because the
conversion of the facade git options to internal git options does not
copy the allowPrereleases field: the FetchLocator outcome and sink are
equal for any locator, HTTP response and git oracle, and the internal
resolver receives equal options for any advertisement and ref spec. -/
theorem c10_allow_prereleases_option_has_no_effect :
    (∀ (o : vcsfetch.fetchOptions) (a b : Bool) (locator : giturl.Locator)
       (doResp : GoOutcome download.HttpResp)
       (gitFetch : git.Options → GoStr → GoStr → List GoStr → GoOutcome Unit × List GoStr)
       (w : List GoStr),
       vcsfetch.FetchLocator (vcsfetch.FetchWithAllowPrereleases a o) locator doResp gitFetch w =
         vcsfetch.FetchLocator (vcsfetch.FetchWithAllowPrereleases b o) locator doResp gitFetch w) ∧
    (∀ (o : vcsfetch.gitOptions) (a b : Bool) (allRefs : List plumbing.Reference) (ref : GoStr),
       git.pickRef allRefs ref
           (some (vcsfetch.gitOptions.toInternalGitOptions (vcsfetch.withGitAllowPrereleases a o))) =
         git.pickRef allRefs ref
           (some (vcsfetch.gitOptions.toInternalGitOptions (vcsfetch.withGitAllowPrereleases b o)))) := by
  constructor
  · intro o a b locator doResp gitFetch w
    rfl
  · intro o a b allRefs ref
    rfl
